import Mathlib

set_option autoImplicit false

/-!
# Model of the ART LLVM JNI stub compiler

Shallow embedding of `src/compiler_llvm/jni_compiler.cc`.  `JniCompiler::Compile`
(lines 64-258) emits, for one native method, a straight-line LLVM function body:
it allocates and publishes a shadow frame (SIRT), marshals the arguments,
brackets the foreign call with thread-state stores and local-reference-cookie
bookkeeping, decodes a reference return value, unlinks the frame and verifies
the body.  The body is straight-line (a single basic block, no branches), so we
embed the compiler as a function from the method data to the ordered list of
emitted instructions, `compileTrace`, together with the foreign-call argument
list it assembles.  A small value semantics (`evalMArg`) gives the runtime
meaning of each marshalled argument, and a state semantics (`scopeStep`,
`runScope`) executes the emitted loads/stores of the JNIEnv cookie and
segment-state fields around the foreign call.
-/

namespace ArtJni

/-- Thread runtime-state values stored by the stub: `Thread::kNative` (line 140)
and `Thread::kRunnable` (line 212). -/
inductive TState
  | kNative
  | kRunnable
deriving DecidableEq

/-- The two `JNIEnvExt` fields the stub touches: `local_ref_cookie`
(`JNIEnvExt::LocalRefCookieOffset`, lines 192/201/229/237) and
`locals.segment_state` (`JNIEnvExt::SegmentStateOffset`, lines 198/232). -/
inductive EnvField
  | localRefCookie
  | segmentState
deriving DecidableEq

/-- Stub-local SSA values holding loaded cookie/segment values, named after the
C++ locals `saved_local_ref_cookie` (line 190), `segment_state` (line 196) and
`local_ref_cookie` (line 227). -/
inductive Reg
  | savedLocalRefCookie
  | segmentStateReg
  | localRefCookieReg
deriving DecidableEq

/-- The value stored into a SIRT slot: the declaring-class object loaded from
the method (line 161) or the bridge argument at a given position (line 174). -/
inductive SlotSrc
  | classObj
  | argVal (pos : Nat)
deriving DecidableEq

/-- One entry of the assembled foreign-call argument list (lines 150-186):
the JNIEnv handle (line 152), the bitcast address of the class slot with no
null test (line 168), a declared reference argument marshalled through the
`icmp`/`select` of lines 177-181 (slot address, or literal null when the
argument is null), or a primitive argument passed through (line 184). -/
inductive MArg
  | envHandle
  | classSlotRef (slot : Nat)
  | refArg (pos slot : Nat)
  | primArg (pos : Nat)
deriving DecidableEq

/-- Which value the emitted `ret` returns: the raw foreign return value, or
the result of `DecodeJObjectInThread` applied to it (lines 220-224, 244-248). -/
inductive RetSrc
  | raw
  | decodedRaw
deriving DecidableEq

/-- The IR instructions `JniCompiler::Compile` emits, one constructor per
emission site, in the source's vocabulary. -/
inductive Inst
  | getCurrentThread
  | allocaShadowFrame (slots : Nat)
  | zeroInitShadowFrame
  | storeMethodField
  | storeSizeField (slots : Nat)
  | pushShadowFrame
  | storeTopOfManagedStack
  | loadJniEnv
  | setThreadState (s : TState)
  | loadNativeCode
  | loadDeclaringClass
  | storeSirtSlot (slot : Nat) (src : SlotSrc)
  | selectNullCheck (pos slot : Nat)
  | loadEnv (f : EnvField) (r : Reg)
  | storeEnv (f : EnvField) (r : Reg)
  | callNative (args : List MArg)
  | decodeJObjectInThread
  | popShadowFrame
  | retVal (src : RetSrc)
  | retVoid
  | verifyFunction
deriving DecidableEq

/-- The method data `JniCompiler::Compile` consumes: the static flag
(`method_->IsStatic()`, line 65) and the method shorty (lines 215-218 and
281-285): the return type tag followed by the declared argument type tags.
Tag 'L' is a reference, 'V' a void return, anything else a primitive kind. -/
structure MethodInfo where
  isStatic : Bool
  shortyRet : Char
  shortyArgs : List Char
deriving DecidableEq

/-- Parameter types of the generated (bridge) function after the leading
method pointer, from `GetFunctionType` with `is_target_function = false`
(lines 278-306): a leading 'L' for the receiver when the method is not
static, then the shorty argument tags.  These are exactly the arguments the
counting loop of lines 83-88 and the marshalling loop of lines 170-186
iterate over. -/
def bridgeParamTys (m : MethodInfo) : List Char :=
  (if m.isStatic then [] else ['L']) ++ m.shortyArgs

/-- Number of SIRT slots, computed as in lines 82-88: one for the class
object when the method is static, plus one per `jobject`-typed bridge
argument. -/
def sirtSize (m : MethodInfo) : Nat :=
  (if m.isStatic then 1 else 0)
    + ((bridgeParamTys m).filter (fun c => c = 'L')).length

/-- The marshalling loop of lines 170-186, iterating over the bridge
arguments.  `pos` is the position of the next argument among the bridge
arguments, `slot` the next unused SIRT slot (`sirt_member_index`).  Returns
the emitted instructions, the values pushed onto the foreign argument list,
and the final slot counter.  A reference argument is stored into the next
slot (lines 172-174) and marshalled through the null-preserving select
(lines 177-182); a primitive argument is pushed unchanged (line 184). -/
def marshalArgs : List Char → Nat → Nat → List Inst × List MArg × Nat
  | [], _, slot => ([], [], slot)
  | ty :: rest, pos, slot =>
    if ty = 'L' then
      let r := marshalArgs rest (pos + 1) (slot + 1)
      (Inst.storeSirtSlot slot (SlotSrc.argVal pos)
         :: Inst.selectNullCheck pos slot :: r.1,
       MArg.refArg pos slot :: r.2.1, r.2.2)
    else
      let r := marshalArgs rest (pos + 1) slot
      (r.1, MArg.primArg pos :: r.2.1, r.2.2)

/-- The complete foreign-call argument list (lines 150-186): the JNIEnv
handle first (line 152); for a static method the bitcast address of SIRT
slot 0 holding the declaring class (lines 160-168); then the marshalled
bridge arguments in order.  For a static method the marshalling loop starts
at slot 1 (the class consumed slot 0, line 165), otherwise at slot 0. -/
def foreignArgList (m : MethodInfo) : List MArg :=
  MArg.envHandle ::
    (if m.isStatic then
       MArg.classSlotRef 0 :: (marshalArgs (bridgeParamTys m) 0 1).2.1
     else
       (marshalArgs (bridgeParamTys m) 0 0).2.1)

/-- Instructions emitted by the argument-marshalling phase (lines 159-186):
for a static method, the declaring-class load and its store into slot 0
(lines 160-167), then the loop over the bridge arguments. -/
def marshalSection (m : MethodInfo) : List Inst :=
  if m.isStatic then
    Inst.loadDeclaringClass :: Inst.storeSirtSlot 0 SlotSrc.classObj
      :: (marshalArgs (bridgeParamTys m) 0 1).1
  else
    (marshalArgs (bridgeParamTys m) 0 0).1

/-- Prologue of the emitted body, lines 93-146 in order: get the current
thread, allocate the shadow frame, zero-initialize it, store the method
pointer and the slot count into its header, push it onto the thread's frame
stack, record the top of the managed stack, load the JNIEnv, set the thread
state to native, and load the native code address. -/
def framePrologue (m : MethodInfo) : List Inst :=
  [Inst.getCurrentThread,
   Inst.allocaShadowFrame (sirtSize m),
   Inst.zeroInitShadowFrame,
   Inst.storeMethodField,
   Inst.storeSizeField (sirtSize m),
   Inst.pushShadowFrame,
   Inst.storeTopOfManagedStack,
   Inst.loadJniEnv,
   Inst.setThreadState TState.kNative,
   Inst.loadNativeCode]

/-- Lines 189-212 in order: save `env->local_ref_cookie` into
`saved_local_ref_cookie`, load `env->locals.segment_state`, overwrite the
cookie field with it, perform the foreign call, and set the thread state
back to runnable. -/
def scopeSaveAndCall (m : MethodInfo) : List Inst :=
  [Inst.loadEnv EnvField.localRefCookie Reg.savedLocalRefCookie,
   Inst.loadEnv EnvField.segmentState Reg.segmentStateReg,
   Inst.storeEnv EnvField.localRefCookie Reg.segmentStateReg,
   Inst.callNative (foreignArgList m),
   Inst.setThreadState TState.kRunnable]

/-- Lines 220-224: the `DecodeJObjectInThread` call is emitted exactly when
the return shorty tag is 'L'. -/
def decodeSection (m : MethodInfo) : List Inst :=
  if m.shortyRet = 'L' then [Inst.decodeJObjectInThread] else []

/-- Lines 226-241 in order: load `env->local_ref_cookie` into
`local_ref_cookie`, store it into `env->locals.segment_state`, restore
`saved_local_ref_cookie` into the cookie field, and pop the shadow frame. -/
def scopeRestoreAndPop : List Inst :=
  [Inst.loadEnv EnvField.localRefCookie Reg.localRefCookieReg,
   Inst.storeEnv EnvField.segmentState Reg.localRefCookieReg,
   Inst.storeEnv EnvField.localRefCookie Reg.savedLocalRefCookie,
   Inst.popShadowFrame]

/-- Lines 244-248: return the (possibly decoded) value, or void. -/
def retSection (m : MethodInfo) : List Inst :=
  if m.shortyRet = 'V' then [Inst.retVoid]
  else [Inst.retVal (if m.shortyRet = 'L' then RetSrc.decodedRaw else RetSrc.raw)]

/-- The ordered instruction trace emitted by `JniCompiler::Compile`
(lines 90-254): prologue, argument marshalling, cookie save and foreign
call, optional return-value decode, cookie restore and frame pop, return,
and the final `llvm::verifyFunction` call. -/
def compileTrace (m : MethodInfo) : List Inst :=
  framePrologue m ++ marshalSection m ++ scopeSaveAndCall m
    ++ decodeSection m ++ scopeRestoreAndPop ++ retSection m
    ++ [Inst.verifyFunction]

/-- The artifact of lines 256-257: `new CompiledMethod(instruction set, elf
index)`. -/
structure CompiledMethod where
  instructionSet : Nat
  elfIndex : Nat
deriving DecidableEq

/-- `JniCompiler::Compile` as a whole: it emits the body and packages the
artifact.  `verifierRejects` is the verdict `llvm::verifyFunction` reaches on
the emitted body; the source invokes the verifier with
`llvm::PrintMessageAction` (line 254), which reports a broken body on the
error stream but does not abort, and discards the returned status, so the
`CompiledMethod` of lines 256-257 is returned no matter the verdict. -/
def Compile (m : MethodInfo) (instructionSet elfIndex : Nat)
    (_verifierRejects : Bool) : List Inst × Option CompiledMethod :=
  (compileTrace m, some ⟨instructionSet, elfIndex⟩)

/-- Runtime value of a marshalled foreign argument.  `envPtr` is the JNIEnv
handle, `rnull` a literal null handle, `slotAddr i` the address of SIRT slot
`i` reinterpreted as a `jobject`, `passthrough p` the unchanged primitive at
bridge position `p`. -/
inductive RVal
  | envPtr
  | rnull
  | slotAddr (slot : Nat)
  | passthrough (pos : Nat)
deriving DecidableEq

/-- Runtime evaluation of one marshalled argument.  `argv p` is the
`jobject` value of the bridge argument at position `p` (`none` = null);
`classRef` is the declaring-class reference loaded at line 161.  A declared
reference argument goes through the `icmp`/`select` of lines 177-181: a null
argument yields a literal null, otherwise the slot address.  The class slot
value (line 168) is the bitcast slot address unconditionally: the `classRef`
value, null or not, is never consulted. -/
def evalMArg (argv : Nat → Option Nat) (_classRef : Option Nat) : MArg → RVal
  | MArg.envHandle => RVal.envPtr
  | MArg.classSlotRef slot => RVal.slotAddr slot
  | MArg.refArg pos slot =>
      if argv pos = none then RVal.rnull else RVal.slotAddr slot
  | MArg.primArg pos => RVal.passthrough pos

/-- Number of reference-typed tags in a tag list. -/
def refCount (tys : List Char) : Nat :=
  (tys.filter (fun c => c = 'L')).length

/-- Number of reference-typed tags strictly before position `p`. -/
def refCountBefore (tys : List Char) (p : Nat) : Nat :=
  ((tys.take p).filter (fun c => c = 'L')).length

/-- The SIRT slot that the bridge argument at position `p` occupies when it
is reference-typed: slots are consumed densely, after the class slot for a
static method. -/
def slotFor (m : MethodInfo) (p : Nat) : Nat :=
  (if m.isStatic then 1 else 0) + refCountBefore (bridgeParamTys m) p

/-- The SIRT slot indices written by a trace, in emission order. -/
def sirtStoreSlots (tr : List Inst) : List Nat :=
  tr.filterMap fun a =>
    match a with
    | Inst.storeSirtSlot slot _ => some slot
    | _ => none

/-- State for executing the stub's JNIEnv bookkeeping: the three stub-local
SSA values and the two `JNIEnvExt` fields. -/
structure ScopeState where
  savedLocalRefCookie : Int
  segmentStateReg : Int
  localRefCookieReg : Int
  localRefCookie : Int
  segmentState : Int
deriving DecidableEq

/-- Read a `JNIEnvExt` field. -/
def readEnv (s : ScopeState) : EnvField → Int
  | EnvField.localRefCookie => s.localRefCookie
  | EnvField.segmentState => s.segmentState

/-- Read a stub-local SSA value. -/
def readReg (s : ScopeState) : Reg → Int
  | Reg.savedLocalRefCookie => s.savedLocalRefCookie
  | Reg.segmentStateReg => s.segmentStateReg
  | Reg.localRefCookieReg => s.localRefCookieReg

/-- Write a stub-local SSA value. -/
def writeReg (s : ScopeState) : Reg → Int → ScopeState
  | Reg.savedLocalRefCookie, v => { s with savedLocalRefCookie := v }
  | Reg.segmentStateReg, v => { s with segmentStateReg := v }
  | Reg.localRefCookieReg, v => { s with localRefCookieReg := v }

/-- Write a `JNIEnvExt` field. -/
def writeEnv (s : ScopeState) : EnvField → Int → ScopeState
  | EnvField.localRefCookie, v => { s with localRefCookie := v }
  | EnvField.segmentState, v => { s with segmentState := v }

/-- One step of the JNIEnv bookkeeping semantics.  The env loads and stores
execute as such; the foreign callee is modeled as creating `created` local
references, each advancing the segment state by one, and touching nothing
else; every other instruction leaves this state alone. -/
def scopeStep (created : Nat) (s : ScopeState) : Inst → ScopeState
  | Inst.loadEnv f r => writeReg s r (readEnv s f)
  | Inst.storeEnv f r => writeEnv s f (readReg s r)
  | Inst.callNative _ => { s with segmentState := s.segmentState + created }
  | _ => s

/-- Execute a trace under the JNIEnv bookkeeping semantics. -/
def runScope (created : Nat) (s : ScopeState) (tr : List Inst) : ScopeState :=
  tr.foldl (scopeStep created) s

/-- Boolean discriminators used to state emission-order properties. -/
def isAllocaB : Inst → Bool
  | Inst.allocaShadowFrame _ => true
  | _ => false

def isPushB : Inst → Bool
  | Inst.pushShadowFrame => true
  | _ => false

def isSetNativeB : Inst → Bool
  | Inst.setThreadState TState.kNative => true
  | _ => false

def isSetRunnableB : Inst → Bool
  | Inst.setThreadState TState.kRunnable => true
  | _ => false

def isStoreSirtB : Inst → Bool
  | Inst.storeSirtSlot _ _ => true
  | _ => false

def isCallNativeB : Inst → Bool
  | Inst.callNative _ => true
  | _ => false

def isDecodeB : Inst → Bool
  | Inst.decodeJObjectInThread => true
  | _ => false

def isPopB : Inst → Bool
  | Inst.popShadowFrame => true
  | _ => false

def isVerifyB : Inst → Bool
  | Inst.verifyFunction => true
  | _ => false

def isRetB : Inst → Bool
  | Inst.retVal _ => true
  | Inst.retVoid => true
  | _ => false

/-- Every instruction satisfying `p` occurs strictly before every
instruction satisfying `q` in the trace `tr`. -/
def Before (tr : List Inst) (p q : Inst → Bool) : Prop :=
  ∀ (i j : Nat) (a b : Inst), tr[i]? = some a → tr[j]? = some b →
    p a = true → q b = true → i < j

/-- The part of the trace strictly after the foreign call. -/
def postCallTrace (tr : List Inst) : List Inst :=
  (tr.dropWhile fun a => !isCallNativeB a).drop 1

/-- The env-field loads of a trace, with their destination registers, in
order. -/
def envLoads (tr : List Inst) : List (EnvField × Reg) :=
  tr.filterMap fun a =>
    match a with
    | Inst.loadEnv f r => some (f, r)
    | _ => none

/-- The env-field stores of a trace, with their source registers, in
order. -/
def envStores (tr : List Inst) : List (EnvField × Reg) :=
  tr.filterMap fun a =>
    match a with
    | Inst.storeEnv f r => some (f, r)
    | _ => none

/-- Static method `int add(int, int)`, the scenario of spec section 8. -/
def mAdd : MethodInfo := ⟨true, 'I', ['I', 'I']⟩

/-- Instance method `Object get(Object key)`, the scenario of spec
section 8. -/
def mGet : MethodInfo := ⟨false, 'L', ['L']⟩

example : sirtSize mAdd = 1 := by decide
example : sirtSize mGet = 2 := by decide
example : foreignArgList mAdd = [MArg.envHandle, MArg.classSlotRef 0,
    MArg.primArg 0, MArg.primArg 1] := by decide
example : foreignArgList mGet = [MArg.envHandle, MArg.refArg 0 0,
    MArg.refArg 1 1] := by decide

/-- The marshalling loop emits only SIRT stores of argument values and
null-check selects. -/
theorem marshalArgs_inst_shape (tys : List Char) :
    ∀ (pos slot : Nat) (a : Inst), a ∈ (marshalArgs tys pos slot).1 →
      (∃ s p, a = Inst.storeSirtSlot s (SlotSrc.argVal p)) ∨
      (∃ p s, a = Inst.selectNullCheck p s) := by
  induction tys with
  | nil => intro pos slot a ha; simp [marshalArgs] at ha
  | cons ty rest ih =>
      intro pos slot a ha
      by_cases h : ty = 'L'
      · simp only [marshalArgs, h, if_true, List.mem_cons] at ha
        rcases ha with rfl | rfl | ha
        · exact Or.inl ⟨slot, pos, rfl⟩
        · exact Or.inr ⟨pos, slot, rfl⟩
        · exact ih _ _ _ ha
      · simp only [marshalArgs, h, if_false] at ha
        exact ih _ _ _ ha

/-- The marshalling phase emits only the declaring-class load, SIRT stores,
and null-check selects. -/
theorem marshalSection_shape (m : MethodInfo) :
    ∀ a ∈ marshalSection m,
      a = Inst.loadDeclaringClass ∨
      (∃ s src, a = Inst.storeSirtSlot s src) ∨
      (∃ p s, a = Inst.selectNullCheck p s) := by
  intro a ha
  cases hs : m.isStatic with
  | true =>
      simp only [marshalSection, hs, if_true, List.mem_cons] at ha
      rcases ha with rfl | rfl | ha
      · exact Or.inl rfl
      · exact Or.inr (Or.inl ⟨0, SlotSrc.classObj, rfl⟩)
      · rcases marshalArgs_inst_shape _ _ _ _ ha with ⟨s, p, h⟩ | ⟨p, s, h⟩
        · exact Or.inr (Or.inl ⟨s, _, h⟩)
        · exact Or.inr (Or.inr ⟨p, s, h⟩)
  | false =>
      simp only [marshalSection, hs, if_false] at ha
      rcases marshalArgs_inst_shape _ _ _ _ ha with ⟨s, p, h⟩ | ⟨p, s, h⟩
      · exact Or.inr (Or.inl ⟨s, _, h⟩)
      · exact Or.inr (Or.inr ⟨p, s, h⟩)

/-- Discharge a per-instruction boolean predicate over the marshalling
phase. -/
theorem marshalSection_pred_false (m : MethodInfo) (P : Inst → Bool)
    (h1 : P Inst.loadDeclaringClass = false)
    (h2 : ∀ s src, P (Inst.storeSirtSlot s src) = false)
    (h3 : ∀ p s, P (Inst.selectNullCheck p s) = false) :
    ∀ a ∈ marshalSection m, P a = false := by
  intro a ha
  rcases marshalSection_shape m a ha with rfl | ⟨s, src, rfl⟩ | ⟨p, s, rfl⟩
  · exact h1
  · exact h2 s src
  · exact h3 p s

/-- Splitting principle for emission order: if no instruction of the second
part satisfies `p` and no instruction of the first part satisfies `q`, then
every `p`-instruction precedes every `q`-instruction. -/
theorem before_split (xs ys : List Inst) (p q : Inst → Bool)
    (hp : ∀ b ∈ ys, p b = false) (hq : ∀ a ∈ xs, q a = false) :
    Before (xs ++ ys) p q := by
  intro i j a b hi hj hpa hqb
  have hiLt : i < xs.length := by
    by_contra hle
    push_neg at hle
    rw [List.getElem?_append_right hle] at hi
    have := hp a (List.getElem?_mem hi)
    simp [this] at hpa
  have hjGe : xs.length ≤ j := by
    by_contra hlt
    push_neg at hlt
    rw [List.getElem?_append, if_pos hlt] at hj
    have := hq b (List.getElem?_mem hj)
    simp [this] at hqb
  omega

/-- A fold whose steps are all neutral on a list leaves the state alone. -/
theorem foldl_of_neutral {β : Type} (f : β → Inst → β) (l : List Inst)
    (h : ∀ s a, a ∈ l → f s a = s) : ∀ s, l.foldl f s = s := by
  induction l with
  | nil => intro s; rfl
  | cons a l ih =>
      intro s
      rw [List.foldl_cons, h s a (List.mem_cons_self a l)]
      exact ih (fun s b hb => h s b (List.mem_cons_of_mem a hb)) s

/-- The marshalling phase touches neither the JNIEnv fields nor the cookie
registers. -/
theorem scope_marshal_neutral (m : MethodInfo) (created : Nat) :
    ∀ s, (marshalSection m).foldl (scopeStep created) s = s := by
  apply foldl_of_neutral
  intro s a ha
  rcases marshalSection_shape m a ha with rfl | ⟨sl, src, rfl⟩ | ⟨p, sl, rfl⟩ <;> rfl

/-- Reference count before position 0 is zero. -/
theorem refCountBefore_zero (tys : List Char) : refCountBefore tys 0 = 0 := by
  simp [refCountBefore]

/-- Unfolding of the reference count before a successor position. -/
theorem refCountBefore_cons (ty : Char) (rest : List Char) (p : Nat) :
    refCountBefore (ty :: rest) (p + 1)
      = (if ty = 'L' then 1 else 0) + refCountBefore rest p := by
  unfold refCountBefore
  rw [List.take_succ_cons, List.filter_cons]
  by_cases h : ty = 'L' <;> simp [h, Nat.add_comm]

/-- Position-wise description of the marshalled foreign arguments: the
bridge argument at position `p` becomes a null-checked slot reference when
reference-typed (occupying the slot after all earlier reference arguments),
and a passed-through primitive otherwise. -/
theorem marshalArgs_margs_getElem? (tys : List Char) :
    ∀ (pos slot p : Nat),
      ((marshalArgs tys pos slot).2.1)[p]?
        = (tys[p]?).map (fun ty =>
            if ty = 'L' then MArg.refArg (pos + p) (slot + refCountBefore tys p)
            else MArg.primArg (pos + p)) := by
  induction tys with
  | nil => intro pos slot p; simp [marshalArgs]
  | cons ty rest ih =>
      intro pos slot p
      by_cases h : ty = 'L'
      · cases p with
        | zero => simp [marshalArgs, h, refCountBefore_zero]
        | succ n =>
            have hrec := ih (pos + 1) (slot + 1) n
            simp only [marshalArgs, h, if_true, List.getElem?_cons_succ]
            rw [hrec]
            cases hr : rest[n]? with
            | none => simp
            | some ty' =>
                simp only [Option.map_some']
                by_cases h' : ty' = 'L' <;>
                  simp only [h', if_true, if_false, refCountBefore_cons, h,
                    Option.some.injEq] <;>
                  · congr 1 <;> omega
      · cases p with
        | zero => simp [marshalArgs, h, refCountBefore_zero]
        | succ n =>
            have hrec := ih (pos + 1) slot n
            simp only [marshalArgs, h, if_false, List.getElem?_cons_succ]
            rw [hrec]
            cases hr : rest[n]? with
            | none => simp
            | some ty' =>
                simp only [Option.map_some']
                by_cases h' : ty' = 'L' <;>
                  simp only [h', if_true, if_false, refCountBefore_cons, h,
                    Option.some.injEq] <;>
                  · congr 1 <;> omega

/-- Every reference-typed bridge argument gets a SIRT store into the slot
after all earlier reference arguments. -/
theorem marshalArgs_store_mem (tys : List Char) :
    ∀ (pos slot p : Nat), tys[p]? = some 'L' →
      Inst.storeSirtSlot (slot + refCountBefore tys p) (SlotSrc.argVal (pos + p))
        ∈ (marshalArgs tys pos slot).1 := by
  induction tys with
  | nil => intro pos slot p h; simp at h
  | cons ty rest ih =>
      intro pos slot p h
      cases p with
      | zero =>
          have hty : ty = 'L' := by simpa using h
          simp [marshalArgs, hty, refCountBefore_zero]
      | succ n =>
          have hn : rest[n]? = some 'L' := by simpa using h
          by_cases hL : ty = 'L'
          · have hmem := ih (pos + 1) (slot + 1) n hn
            have e1 : slot + refCountBefore (ty :: rest) (n + 1)
                = slot + 1 + refCountBefore rest n := by
              rw [refCountBefore_cons]
              simp [hL]
              omega
            have e2 : pos + (n + 1) = pos + 1 + n := by omega
            rw [e1, e2]
            simp only [marshalArgs, hL, if_true, List.mem_cons]
            exact Or.inr (Or.inr hmem)
          · have hmem := ih (pos + 1) slot n hn
            have e1 : slot + refCountBefore (ty :: rest) (n + 1)
                = slot + refCountBefore rest n := by
              rw [refCountBefore_cons]
              simp [hL]
            have e2 : pos + (n + 1) = pos + 1 + n := by omega
            rw [e1, e2]
            simp only [marshalArgs, hL, if_false]
            exact hmem

/-- The SIRT slots written by the marshalling loop are exactly
`slot, slot+1, ...`, one per reference-typed argument, in order. -/
theorem marshalArgs_slots (tys : List Char) :
    ∀ (pos slot : Nat),
      sirtStoreSlots (marshalArgs tys pos slot).1
        = List.range' slot (refCount tys) := by
  induction tys with
  | nil => intro pos slot; simp [marshalArgs, sirtStoreSlots, refCount]
  | cons ty rest ih =>
      intro pos slot
      by_cases h : ty = 'L'
      · have hrc : refCount (ty :: rest) = refCount rest + 1 := by
          simp [refCount, List.filter_cons, h]
        rw [hrc, List.range'_succ]
        simp only [marshalArgs, h, if_true, sirtStoreSlots, List.filterMap_cons]
        exact congrArg _ (ih (pos + 1) (slot + 1))
      · have hrc : refCount (ty :: rest) = refCount rest := by
          simp [refCount, List.filter_cons, h]
        rw [hrc]
        simp only [marshalArgs, h, if_false]
        exact ih (pos + 1) slot

/-- Discharge a per-instruction boolean predicate over the optional decode
instruction. -/
theorem decodeSection_pred_false (m : MethodInfo) (P : Inst → Bool)
    (h : P Inst.decodeJObjectInThread = false) :
    ∀ a ∈ decodeSection m, P a = false := by
  intro a ha
  unfold decodeSection at ha
  split at ha
  · rw [List.mem_singleton] at ha
    rw [ha]
    exact h
  · simp at ha

/-- Discharge a per-instruction boolean predicate over the return
instruction. -/
theorem retSection_pred_false (m : MethodInfo) (P : Inst → Bool)
    (h1 : ∀ src, P (Inst.retVal src) = false) (h2 : P Inst.retVoid = false) :
    ∀ a ∈ retSection m, P a = false := by
  intro a ha
  unfold retSection at ha
  split at ha
  · rw [List.mem_singleton] at ha
    rw [ha]
    exact h2
  · rw [List.mem_singleton] at ha
    rw [ha]
    exact h1 _

/-- The marshalling phase contains no foreign call, so the emitted trace
splits at the `CreateCall` of line 207: everything before it is the
prologue, the marshalling phase, and the three cookie-save instructions. -/
theorem postCallTrace_compileTrace (m : MethodInfo) :
    postCallTrace (compileTrace m)
      = Inst.setThreadState TState.kRunnable
          :: (decodeSection m ++ (scopeRestoreAndPop ++ (retSection m
              ++ [Inst.verifyFunction]))) := by
  have hsplit : compileTrace m
      = (framePrologue m ++ (marshalSection m
          ++ [Inst.loadEnv EnvField.localRefCookie Reg.savedLocalRefCookie,
              Inst.loadEnv EnvField.segmentState Reg.segmentStateReg,
              Inst.storeEnv EnvField.localRefCookie Reg.segmentStateReg]))
        ++ (Inst.callNative (foreignArgList m)
            :: (Inst.setThreadState TState.kRunnable
                :: (decodeSection m ++ (scopeRestoreAndPop ++ (retSection m
                    ++ [Inst.verifyFunction]))))) := by
    simp [compileTrace, scopeSaveAndCall]
  unfold postCallTrace
  rw [hsplit]
  rw [List.dropWhile_append_of_pos]
  · rw [List.dropWhile_cons_of_neg]
    · simp
    · simp [isCallNativeB]
  · intro a ha
    rw [List.mem_append] at ha
    rw [Bool.not_eq_true']
    rcases ha with ha | ha
    · simp only [framePrologue] at ha
      fin_cases ha <;> rfl
    · rw [List.mem_append] at ha
      rcases ha with ha | ha
      · have := marshalSection_pred_false m isCallNativeB rfl
          (fun _ _ => rfl) (fun _ _ => rfl) a ha
        simp [this]
      · fin_cases ha <;> rfl

/-- After the foreign call, the only env-field load the stub performs is
the load of the cookie field into `local_ref_cookie` (line 227). -/
theorem envLoads_postCall (m : MethodInfo) :
    envLoads (postCallTrace (compileTrace m))
      = [(EnvField.localRefCookie, Reg.localRefCookieReg)] := by
  rw [postCallTrace_compileTrace]
  by_cases h1 : m.shortyRet = 'L'
  · have h2 : ¬ m.shortyRet = 'V' := by rw [h1]; decide
    simp [envLoads, decodeSection, scopeRestoreAndPop, retSection, h1, h2]
  · by_cases h2 : m.shortyRet = 'V' <;>
      simp [envLoads, decodeSection, scopeRestoreAndPop, retSection, h1, h2]

/-- After the foreign call, the env-field stores the stub performs are
exactly: the cookie value into the segment-state field (line 231), then the
saved cookie into the cookie field (line 237), in that order. -/
theorem envStores_postCall (m : MethodInfo) :
    envStores (postCallTrace (compileTrace m))
      = [(EnvField.segmentState, Reg.localRefCookieReg),
         (EnvField.localRefCookie, Reg.savedLocalRefCookie)] := by
  rw [postCallTrace_compileTrace]
  by_cases h1 : m.shortyRet = 'L'
  · have h2 : ¬ m.shortyRet = 'V' := by rw [h1]; decide
    simp [envStores, decodeSection, scopeRestoreAndPop, retSection, h1, h2]
  · by_cases h2 : m.shortyRet = 'V' <;>
      simp [envStores, decodeSection, scopeRestoreAndPop, retSection, h1, h2]

/-- Executing the whole emitted body under the JNIEnv bookkeeping semantics:
the cookie register ends up holding the pre-call segment state, the cookie
field is restored to its original value, and the segment-state field returns
to its pre-call value no matter how many local references the callee
created. -/
theorem runScope_compileTrace (m : MethodInfo) (created : Nat) (s : ScopeState) :
    runScope created s (compileTrace m)
      = { savedLocalRefCookie := s.localRefCookie,
          segmentStateReg := s.segmentState,
          localRefCookieReg := s.segmentState,
          localRefCookie := s.localRefCookie,
          segmentState := s.segmentState } := by
  obtain ⟨sv, sg, lr, ck, ss⟩ := s
  unfold runScope compileTrace
  simp only [List.foldl_append]
  rw [show (framePrologue m).foldl (scopeStep created) ⟨sv, sg, lr, ck, ss⟩
        = ⟨sv, sg, lr, ck, ss⟩ from rfl]
  rw [scope_marshal_neutral m created]
  by_cases h1 : m.shortyRet = 'L'
  · have h2 : ¬ m.shortyRet = 'V' := by rw [h1]; decide
    simp [scopeSaveAndCall, decodeSection, scopeRestoreAndPop, retSection,
      h1, h2, scopeStep, readEnv, readReg, writeEnv, writeReg]
  · by_cases h2 : m.shortyRet = 'V' <;>
      simp [scopeSaveAndCall, decodeSection, scopeRestoreAndPop, retSection,
        h1, h2, scopeStep, readEnv, readReg, writeEnv, writeReg]

/-- Chain predicate-falsity across an append. -/
theorem pred_false_append {P : Inst → Bool} {xs ys : List Inst}
    (hx : ∀ a ∈ xs, P a = false) (hy : ∀ a ∈ ys, P a = false) :
    ∀ a ∈ xs ++ ys, P a = false := by
  intro a ha
  rcases List.mem_append.mp ha with h | h
  · exact hx a h
  · exact hy a h

/-- Discharge a per-instruction boolean predicate over the cookie-save and
call region. -/
theorem scopeSaveAndCall_pred_false (m : MethodInfo) (P : Inst → Bool)
    (hLoad : ∀ f r, P (Inst.loadEnv f r) = false)
    (hStore : ∀ f r, P (Inst.storeEnv f r) = false)
    (hCall : ∀ args, P (Inst.callNative args) = false)
    (hRun : P (Inst.setThreadState TState.kRunnable) = false) :
    ∀ a ∈ scopeSaveAndCall m, P a = false := by
  intro a ha
  simp only [scopeSaveAndCall] at ha
  fin_cases ha
  · exact hLoad _ _
  · exact hLoad _ _
  · exact hStore _ _
  · exact hCall _
  · exact hRun

/-- Discharge a per-instruction boolean predicate over the cookie-restore
and pop region. -/
theorem scopeRestoreAndPop_pred_false (P : Inst → Bool)
    (hLoad : ∀ f r, P (Inst.loadEnv f r) = false)
    (hStore : ∀ f r, P (Inst.storeEnv f r) = false)
    (hPop : P Inst.popShadowFrame = false) :
    ∀ a ∈ scopeRestoreAndPop, P a = false := by
  intro a ha
  simp only [scopeRestoreAndPop] at ha
  fin_cases ha
  · exact hLoad _ _
  · exact hStore _ _
  · exact hStore _ _
  · exact hPop

/-- Discharge a per-instruction boolean predicate over the whole suffix of
the trace that follows the prologue. -/
theorem trace_tail_pred_false (m : MethodInfo) (P : Inst → Bool)
    (hClass : P Inst.loadDeclaringClass = false)
    (hSirt : ∀ s src, P (Inst.storeSirtSlot s src) = false)
    (hSel : ∀ p s, P (Inst.selectNullCheck p s) = false)
    (hLoad : ∀ f r, P (Inst.loadEnv f r) = false)
    (hStore : ∀ f r, P (Inst.storeEnv f r) = false)
    (hCall : ∀ args, P (Inst.callNative args) = false)
    (hRun : P (Inst.setThreadState TState.kRunnable) = false)
    (hDec : P Inst.decodeJObjectInThread = false)
    (hPop : P Inst.popShadowFrame = false)
    (hRet : ∀ src, P (Inst.retVal src) = false)
    (hRetV : P Inst.retVoid = false)
    (hVer : P Inst.verifyFunction = false) :
    ∀ a ∈ marshalSection m ++ (scopeSaveAndCall m ++ (decodeSection m
        ++ (scopeRestoreAndPop ++ (retSection m ++ [Inst.verifyFunction])))),
      P a = false := by
  refine pred_false_append (marshalSection_pred_false m P hClass hSirt hSel)
    (pred_false_append (scopeSaveAndCall_pred_false m P hLoad hStore hCall hRun)
      (pred_false_append (decodeSection_pred_false m P hDec)
        (pred_false_append (scopeRestoreAndPop_pred_false P hLoad hStore hPop)
          (pred_false_append (retSection_pred_false m P hRet hRetV) ?_))))
  intro a ha
  rw [List.mem_singleton] at ha
  rw [ha]
  exact hVer

/-- The shadow frame is allocated before it is pushed (lines 98 and 127). -/
theorem before_alloca_push (m : MethodInfo) :
    Before (compileTrace m) isAllocaB isPushB := by
  have hsplit : compileTrace m
      = [Inst.getCurrentThread, Inst.allocaShadowFrame (sirtSize m)]
        ++ ([Inst.zeroInitShadowFrame, Inst.storeMethodField,
             Inst.storeSizeField (sirtSize m), Inst.pushShadowFrame,
             Inst.storeTopOfManagedStack, Inst.loadJniEnv,
             Inst.setThreadState TState.kNative, Inst.loadNativeCode]
            ++ (marshalSection m ++ (scopeSaveAndCall m ++ (decodeSection m
                ++ (scopeRestoreAndPop ++ (retSection m
                    ++ [Inst.verifyFunction])))))) := by
    simp [compileTrace, framePrologue]
  rw [hsplit]
  apply before_split
  · refine pred_false_append ?_ (trace_tail_pred_false m _ rfl
      (fun _ _ => rfl) (fun _ _ => rfl) (fun _ _ => rfl) (fun _ _ => rfl)
      (fun _ => rfl) rfl rfl rfl (fun _ => rfl) rfl rfl)
    intro a ha
    fin_cases ha <;> rfl
  · intro a ha
    fin_cases ha <;> rfl

/-- The shadow frame is pushed (line 127) before the thread state is set to
native (line 139). -/
theorem before_push_setNative (m : MethodInfo) :
    Before (compileTrace m) isPushB isSetNativeB := by
  have hsplit : compileTrace m
      = [Inst.getCurrentThread, Inst.allocaShadowFrame (sirtSize m),
         Inst.zeroInitShadowFrame, Inst.storeMethodField,
         Inst.storeSizeField (sirtSize m), Inst.pushShadowFrame]
        ++ ([Inst.storeTopOfManagedStack, Inst.loadJniEnv,
             Inst.setThreadState TState.kNative, Inst.loadNativeCode]
            ++ (marshalSection m ++ (scopeSaveAndCall m ++ (decodeSection m
                ++ (scopeRestoreAndPop ++ (retSection m
                    ++ [Inst.verifyFunction])))))) := by
    simp [compileTrace, framePrologue]
  rw [hsplit]
  apply before_split
  · refine pred_false_append ?_ (trace_tail_pred_false m _ rfl
      (fun _ _ => rfl) (fun _ _ => rfl) (fun _ _ => rfl) (fun _ _ => rfl)
      (fun _ => rfl) rfl rfl rfl (fun _ => rfl) rfl rfl)
    intro a ha
    fin_cases ha <;> rfl
  · intro a ha
    fin_cases ha <;> rfl

/-- The shadow frame is pushed (line 127) before any SIRT slot store
(lines 167 and 174). -/
theorem before_push_storeSirt (m : MethodInfo) :
    Before (compileTrace m) isPushB isStoreSirtB := by
  have hsplit : compileTrace m
      = [Inst.getCurrentThread, Inst.allocaShadowFrame (sirtSize m),
         Inst.zeroInitShadowFrame, Inst.storeMethodField,
         Inst.storeSizeField (sirtSize m), Inst.pushShadowFrame]
        ++ ([Inst.storeTopOfManagedStack, Inst.loadJniEnv,
             Inst.setThreadState TState.kNative, Inst.loadNativeCode]
            ++ (marshalSection m ++ (scopeSaveAndCall m ++ (decodeSection m
                ++ (scopeRestoreAndPop ++ (retSection m
                    ++ [Inst.verifyFunction])))))) := by
    simp [compileTrace, framePrologue]
  rw [hsplit]
  apply before_split
  · refine pred_false_append ?_ (trace_tail_pred_false m _ rfl
      (fun _ _ => rfl) (fun _ _ => rfl) (fun _ _ => rfl) (fun _ _ => rfl)
      (fun _ => rfl) rfl rfl rfl (fun _ => rfl) rfl rfl)
    intro a ha
    fin_cases ha <;> rfl
  · intro a ha
    fin_cases ha <;> rfl

/-- The thread state is set to native (line 139) before any SIRT slot store
(lines 167 and 174): marshalling happens inside the native-state window. -/
theorem before_setNative_storeSirt (m : MethodInfo) :
    Before (compileTrace m) isSetNativeB isStoreSirtB := by
  have hsplit : compileTrace m
      = framePrologue m
        ++ (marshalSection m ++ (scopeSaveAndCall m ++ (decodeSection m
            ++ (scopeRestoreAndPop ++ (retSection m
                ++ [Inst.verifyFunction]))))) := by
    simp [compileTrace]
  rw [hsplit]
  apply before_split
  · exact trace_tail_pred_false m _ rfl (fun _ _ => rfl) (fun _ _ => rfl)
      (fun _ _ => rfl) (fun _ _ => rfl) (fun _ => rfl) rfl rfl rfl
      (fun _ => rfl) rfl rfl
  · intro a ha
    simp only [framePrologue] at ha
    fin_cases ha <;> rfl

/-- Every SIRT slot store (lines 167 and 174) precedes the foreign call
(line 207). -/
theorem before_storeSirt_call (m : MethodInfo) :
    Before (compileTrace m) isStoreSirtB isCallNativeB := by
  have hsplit : compileTrace m
      = (framePrologue m ++ marshalSection m)
        ++ (scopeSaveAndCall m ++ (decodeSection m
            ++ (scopeRestoreAndPop ++ (retSection m
                ++ [Inst.verifyFunction])))) := by
    simp [compileTrace]
  rw [hsplit]
  apply before_split
  · refine pred_false_append (scopeSaveAndCall_pred_false m _
      (fun _ _ => rfl) (fun _ _ => rfl) (fun _ => rfl) rfl)
      (pred_false_append (decodeSection_pred_false m _ rfl)
        (pred_false_append (scopeRestoreAndPop_pred_false _
          (fun _ _ => rfl) (fun _ _ => rfl) rfl)
          (pred_false_append (retSection_pred_false m _ (fun _ => rfl) rfl)
            ?_)))
    intro a ha
    rw [List.mem_singleton] at ha
    rw [ha]
    rfl
  · refine pred_false_append ?_ (marshalSection_pred_false m _ rfl
      (fun _ _ => rfl) (fun _ _ => rfl))
    intro a ha
    simp only [framePrologue] at ha
    fin_cases ha <;> rfl

/-- The foreign call (line 207) precedes the store that restores the thread
state to runnable (line 211). -/
theorem before_call_setRunnable (m : MethodInfo) :
    Before (compileTrace m) isCallNativeB isSetRunnableB := by
  have hsplit : compileTrace m
      = (framePrologue m ++ (marshalSection m
          ++ [Inst.loadEnv EnvField.localRefCookie Reg.savedLocalRefCookie,
              Inst.loadEnv EnvField.segmentState Reg.segmentStateReg,
              Inst.storeEnv EnvField.localRefCookie Reg.segmentStateReg,
              Inst.callNative (foreignArgList m)]))
        ++ ([Inst.setThreadState TState.kRunnable]
            ++ (decodeSection m ++ (scopeRestoreAndPop ++ (retSection m
                ++ [Inst.verifyFunction])))) := by
    simp [compileTrace, scopeSaveAndCall]
  rw [hsplit]
  apply before_split
  · refine pred_false_append ?_ (pred_false_append
      (decodeSection_pred_false m _ rfl)
      (pred_false_append (scopeRestoreAndPop_pred_false _
        (fun _ _ => rfl) (fun _ _ => rfl) rfl)
        (pred_false_append (retSection_pred_false m _ (fun _ => rfl) rfl)
          ?_)))
    · intro a ha
      fin_cases ha
      rfl
    · intro a ha
      rw [List.mem_singleton] at ha
      rw [ha]
      rfl
  · refine pred_false_append ?_ (pred_false_append
      (marshalSection_pred_false m _ rfl (fun _ _ => rfl) (fun _ _ => rfl))
      ?_)
    · intro a ha
      simp only [framePrologue] at ha
      fin_cases ha <;> rfl
    · intro a ha
      fin_cases ha <;> rfl

/-- The runnable-state restore (line 211) precedes the decode of a
reference return value (line 222). -/
theorem before_setRunnable_decode (m : MethodInfo) :
    Before (compileTrace m) isSetRunnableB isDecodeB := by
  have hsplit : compileTrace m
      = (framePrologue m ++ (marshalSection m ++ scopeSaveAndCall m))
        ++ (decodeSection m ++ (scopeRestoreAndPop ++ (retSection m
            ++ [Inst.verifyFunction]))) := by
    simp [compileTrace]
  rw [hsplit]
  apply before_split
  · refine pred_false_append (decodeSection_pred_false m _ rfl)
      (pred_false_append (scopeRestoreAndPop_pred_false _
        (fun _ _ => rfl) (fun _ _ => rfl) rfl)
        (pred_false_append (retSection_pred_false m _ (fun _ => rfl) rfl)
          ?_))
    intro a ha
    rw [List.mem_singleton] at ha
    rw [ha]
    rfl
  · refine pred_false_append ?_ (pred_false_append
      (marshalSection_pred_false m _ rfl (fun _ _ => rfl) (fun _ _ => rfl))
      (scopeSaveAndCall_pred_false m _ (fun _ _ => rfl) (fun _ _ => rfl)
        (fun _ => rfl) rfl))
    intro a ha
    simp only [framePrologue] at ha
    fin_cases ha <;> rfl

/-- The runnable-state restore (line 211) precedes the frame pop
(line 241). -/
theorem before_setRunnable_pop (m : MethodInfo) :
    Before (compileTrace m) isSetRunnableB isPopB := by
  have hsplit : compileTrace m
      = (framePrologue m ++ (marshalSection m ++ scopeSaveAndCall m))
        ++ (decodeSection m ++ (scopeRestoreAndPop ++ (retSection m
            ++ [Inst.verifyFunction]))) := by
    simp [compileTrace]
  rw [hsplit]
  apply before_split
  · refine pred_false_append (decodeSection_pred_false m _ rfl)
      (pred_false_append (scopeRestoreAndPop_pred_false _
        (fun _ _ => rfl) (fun _ _ => rfl) rfl)
        (pred_false_append (retSection_pred_false m _ (fun _ => rfl) rfl)
          ?_))
    intro a ha
    rw [List.mem_singleton] at ha
    rw [ha]
    rfl
  · refine pred_false_append ?_ (pred_false_append
      (marshalSection_pred_false m _ rfl (fun _ _ => rfl) (fun _ _ => rfl))
      (scopeSaveAndCall_pred_false m _ (fun _ _ => rfl) (fun _ _ => rfl)
        (fun _ => rfl) rfl))
    intro a ha
    simp only [framePrologue] at ha
    fin_cases ha <;> rfl

/-- The decode of a reference return value (line 222) precedes the frame
pop (line 241). -/
theorem before_decode_pop (m : MethodInfo) :
    Before (compileTrace m) isDecodeB isPopB := by
  have hsplit : compileTrace m
      = (framePrologue m ++ (marshalSection m ++ (scopeSaveAndCall m
          ++ decodeSection m)))
        ++ (scopeRestoreAndPop ++ (retSection m ++ [Inst.verifyFunction])) := by
    simp [compileTrace]
  rw [hsplit]
  apply before_split
  · refine pred_false_append (scopeRestoreAndPop_pred_false _
      (fun _ _ => rfl) (fun _ _ => rfl) rfl)
      (pred_false_append (retSection_pred_false m _ (fun _ => rfl) rfl) ?_)
    intro a ha
    rw [List.mem_singleton] at ha
    rw [ha]
    rfl
  · refine pred_false_append ?_ (pred_false_append
      (marshalSection_pred_false m _ rfl (fun _ _ => rfl) (fun _ _ => rfl))
      (pred_false_append (scopeSaveAndCall_pred_false m _ (fun _ _ => rfl)
        (fun _ _ => rfl) (fun _ => rfl) rfl) ?_))
    · intro a ha
      simp only [framePrologue] at ha
      fin_cases ha <;> rfl
    · exact decodeSection_pred_false m _ rfl

/-- The frame pop (line 241) precedes the verifier invocation (line 254). -/
theorem before_pop_verify (m : MethodInfo) :
    Before (compileTrace m) isPopB isVerifyB := by
  have hsplit : compileTrace m
      = (framePrologue m ++ (marshalSection m ++ (scopeSaveAndCall m
          ++ (decodeSection m ++ scopeRestoreAndPop))))
        ++ (retSection m ++ [Inst.verifyFunction]) := by
    simp [compileTrace]
  rw [hsplit]
  apply before_split
  · refine pred_false_append (retSection_pred_false m _ (fun _ => rfl) rfl)
      ?_
    intro a ha
    rw [List.mem_singleton] at ha
    rw [ha]
    rfl
  · refine pred_false_append ?_ (pred_false_append
      (marshalSection_pred_false m _ rfl (fun _ _ => rfl) (fun _ _ => rfl))
      (pred_false_append (scopeSaveAndCall_pred_false m _ (fun _ _ => rfl)
        (fun _ _ => rfl) (fun _ => rfl) rfl)
        (pred_false_append (decodeSection_pred_false m _ rfl)
          (scopeRestoreAndPop_pred_false _ (fun _ _ => rfl)
            (fun _ _ => rfl) rfl))))
    intro a ha
    simp only [framePrologue] at ha
    fin_cases ha <;> rfl

/-- Occurrence facts for the landmark instructions. -/
theorem push_mem_trace (m : MethodInfo) :
    Inst.pushShadowFrame ∈ compileTrace m := by
  simp [compileTrace, framePrologue]

theorem setNative_mem_trace (m : MethodInfo) :
    Inst.setThreadState TState.kNative ∈ compileTrace m := by
  simp [compileTrace, framePrologue]

theorem setRunnable_mem_trace (m : MethodInfo) :
    Inst.setThreadState TState.kRunnable ∈ compileTrace m := by
  simp [compileTrace, scopeSaveAndCall]

theorem pop_mem_trace (m : MethodInfo) :
    Inst.popShadowFrame ∈ compileTrace m := by
  simp [compileTrace, scopeRestoreAndPop]

theorem call_mem_trace (m : MethodInfo) :
    Inst.callNative (foreignArgList m) ∈ compileTrace m := by
  simp [compileTrace, scopeSaveAndCall]

theorem alloca_mem_trace (m : MethodInfo) :
    Inst.allocaShadowFrame (sirtSize m) ∈ compileTrace m := by
  simp [compileTrace, framePrologue]

theorem verify_mem_trace (m : MethodInfo) :
    Inst.verifyFunction ∈ compileTrace m := by
  simp [compileTrace]

/-- A filter over a region on which the predicate is everywhere false is
empty. -/
theorem filter_eq_nil_of_pred_false {P : Inst → Bool} {L : List Inst}
    (h : ∀ a ∈ L, P a = false) : L.filter P = [] := by
  rw [List.filter_eq_nil_iff]
  intro a ha
  simp [h a ha]

/-- Discharge a per-instruction boolean predicate over the prologue. -/
theorem framePrologue_pred_false (m : MethodInfo) (P : Inst → Bool)
    (h1 : P Inst.getCurrentThread = false)
    (h2 : ∀ n, P (Inst.allocaShadowFrame n) = false)
    (h3 : P Inst.zeroInitShadowFrame = false)
    (h4 : P Inst.storeMethodField = false)
    (h5 : ∀ n, P (Inst.storeSizeField n) = false)
    (h6 : P Inst.pushShadowFrame = false)
    (h7 : P Inst.storeTopOfManagedStack = false)
    (h8 : P Inst.loadJniEnv = false)
    (h9 : ∀ s, P (Inst.setThreadState s) = false)
    (h10 : P Inst.loadNativeCode = false) :
    ∀ a ∈ framePrologue m, P a = false := by
  intro a ha
  simp only [framePrologue] at ha
  fin_cases ha
  exacts [h1, h2 _, h3, h4, h5 _, h6, h7, h8, h9 _, h10]

/-- The decode instruction appears in the emitted body exactly when the
return tag is 'L' (lines 220-224). -/
theorem filter_decode (m : MethodInfo) :
    (compileTrace m).filter isDecodeB
      = (if m.shortyRet = 'L' then [Inst.decodeJObjectInThread] else []) := by
  unfold compileTrace
  simp only [List.filter_append]
  rw [filter_eq_nil_of_pred_false (framePrologue_pred_false m isDecodeB rfl
        (fun _ => rfl) rfl rfl (fun _ => rfl) rfl rfl rfl (fun _ => rfl) rfl),
      filter_eq_nil_of_pred_false (marshalSection_pred_false m isDecodeB rfl
        (fun _ _ => rfl) (fun _ _ => rfl)),
      filter_eq_nil_of_pred_false (scopeSaveAndCall_pred_false m isDecodeB
        (fun _ _ => rfl) (fun _ _ => rfl) (fun _ => rfl) rfl),
      filter_eq_nil_of_pred_false (scopeRestoreAndPop_pred_false isDecodeB
        (fun _ _ => rfl) (fun _ _ => rfl) rfl),
      filter_eq_nil_of_pred_false (retSection_pred_false m isDecodeB
        (fun _ => rfl) rfl)]
  by_cases h : m.shortyRet = 'L' <;>
    simp [decodeSection, h, List.filter, isDecodeB]

/-- The emitted return instruction: ret-void exactly for a void return,
otherwise one ret of the decoded value for a reference return and of the
raw foreign value for a primitive return (lines 244-248). -/
theorem filter_ret (m : MethodInfo) :
    (compileTrace m).filter isRetB
      = (if m.shortyRet = 'V' then [Inst.retVoid]
         else [Inst.retVal
            (if m.shortyRet = 'L' then RetSrc.decodedRaw else RetSrc.raw)]) := by
  unfold compileTrace
  simp only [List.filter_append]
  rw [filter_eq_nil_of_pred_false (framePrologue_pred_false m isRetB rfl
        (fun _ => rfl) rfl rfl (fun _ => rfl) rfl rfl rfl (fun _ => rfl) rfl),
      filter_eq_nil_of_pred_false (marshalSection_pred_false m isRetB rfl
        (fun _ _ => rfl) (fun _ _ => rfl)),
      filter_eq_nil_of_pred_false (scopeSaveAndCall_pred_false m isRetB
        (fun _ _ => rfl) (fun _ _ => rfl) (fun _ => rfl) rfl),
      filter_eq_nil_of_pred_false (scopeRestoreAndPop_pred_false isRetB
        (fun _ _ => rfl) (fun _ _ => rfl) rfl),
      filter_eq_nil_of_pred_false (decodeSection_pred_false m isRetB rfl)]
  by_cases h : m.shortyRet = 'V' <;>
    simp [retSection, h, List.filter, isRetB]

/-- The optional decode region writes no SIRT slot. -/
theorem sirtStoreSlots_decode (m : MethodInfo) :
    sirtStoreSlots (decodeSection m) = [] := by
  unfold decodeSection
  split <;> rfl

/-- The return region writes no SIRT slot. -/
theorem sirtStoreSlots_ret (m : MethodInfo) :
    sirtStoreSlots (retSection m) = [] := by
  unfold retSection
  split <;> rfl

/-- The SIRT slots written by the marshalling phase are exactly
0, 1, ..., sirtSize-1, in order: the class slot (when static) first, then
one slot per reference-typed bridge argument. -/
theorem sirtStoreSlots_marshal (m : MethodInfo) :
    sirtStoreSlots (marshalSection m) = List.range (sirtSize m) := by
  cases hs : m.isStatic with
  | false =>
      simp only [marshalSection, hs, Bool.false_eq_true, if_false]
      rw [marshalArgs_slots]
      have hsz : sirtSize m = refCount (bridgeParamTys m) := by
        simp [sirtSize, hs, refCount]
      rw [hsz, List.range_eq_range']
  | true =>
      simp only [marshalSection, hs, if_true]
      have hcons : sirtStoreSlots (Inst.loadDeclaringClass
          :: Inst.storeSirtSlot 0 SlotSrc.classObj
          :: (marshalArgs (bridgeParamTys m) 0 1).1)
          = 0 :: sirtStoreSlots (marshalArgs (bridgeParamTys m) 0 1).1 := rfl
      rw [hcons, marshalArgs_slots]
      have hsz : sirtSize m = refCount (bridgeParamTys m) + 1 := by
        simp [sirtSize, hs, refCount]
        omega
      rw [hsz, List.range_eq_range', List.range'_succ]

/-- The SIRT slots written by the whole emitted body are exactly
0, 1, ..., sirtSize-1, in order. -/
theorem sirtStoreSlots_compileTrace (m : MethodInfo) :
    sirtStoreSlots (compileTrace m) = List.range (sirtSize m) := by
  have happ : ∀ xs ys : List Inst,
      sirtStoreSlots (xs ++ ys) = sirtStoreSlots xs ++ sirtStoreSlots ys :=
    fun xs ys => List.filterMap_append xs ys _
  unfold compileTrace
  simp only [happ]
  rw [sirtStoreSlots_marshal, sirtStoreSlots_decode, sirtStoreSlots_ret]
  rw [show sirtStoreSlots (framePrologue m) = [] from rfl,
      show sirtStoreSlots (scopeSaveAndCall m) = [] from rfl,
      show sirtStoreSlots scopeRestoreAndPop = [] from rfl,
      show sirtStoreSlots [Inst.verifyFunction] = [] from rfl]
  simp

/-- The SIRT store of a reference-typed bridge argument lands in the
marshalling phase, at the slot after all earlier reference arguments. -/
theorem storeSirt_mem_marshalSection (m : MethodInfo) (p : Nat)
    (h : (bridgeParamTys m)[p]? = some 'L') :
    Inst.storeSirtSlot (slotFor m p) (SlotSrc.argVal p) ∈ marshalSection m := by
  cases hs : m.isStatic with
  | false =>
      simp only [marshalSection, hs, Bool.false_eq_true, if_false]
      have hm := marshalArgs_store_mem (bridgeParamTys m) 0 0 p h
      simpa [slotFor, hs] using hm
  | true =>
      simp only [marshalSection, hs, if_true, List.mem_cons]
      have hm := marshalArgs_store_mem (bridgeParamTys m) 0 1 p h
      right
      right
      simpa [slotFor, hs] using hm

/-- Membership in the marshalling phase transfers into the whole trace. -/
theorem mem_trace_of_mem_marshal (m : MethodInfo) (a : Inst)
    (h : a ∈ marshalSection m) : a ∈ compileTrace m := by
  unfold compileTrace
  simp only [List.mem_append]
  exact Or.inl (Or.inl (Or.inl (Or.inl (Or.inl (Or.inr h)))))

/-- The marshalled value of a reference-typed bridge argument appears on the
foreign argument list. -/
theorem refArg_mem_foreignArgList (m : MethodInfo) (p : Nat)
    (h : (bridgeParamTys m)[p]? = some 'L') :
    MArg.refArg p (slotFor m p) ∈ foreignArgList m := by
  cases hs : m.isStatic with
  | false =>
      simp only [foreignArgList, hs, Bool.false_eq_true, if_false]
      have hm := marshalArgs_margs_getElem? (bridgeParamTys m) 0 0 p
      rw [h] at hm
      simp only [Option.map_some', if_true] at hm
      apply List.mem_cons_of_mem
      have := List.getElem?_mem hm
      simpa [slotFor, hs] using this
  | true =>
      simp only [foreignArgList, hs, if_true]
      have hm := marshalArgs_margs_getElem? (bridgeParamTys m) 0 1 p
      rw [h] at hm
      simp only [Option.map_some', if_true] at hm
      apply List.mem_cons_of_mem
      apply List.mem_cons_of_mem
      have := List.getElem?_mem hm
      simpa [slotFor, hs] using this

/-- Null-check selects emitted by the marshalling loop guard slots at or
after the loop's starting slot. -/
theorem marshalArgs_select_slot_ge (tys : List Char) :
    ∀ (pos slot p s : Nat),
      Inst.selectNullCheck p s ∈ (marshalArgs tys pos slot).1 → slot ≤ s := by
  induction tys with
  | nil => intro pos slot p s h; simp [marshalArgs] at h
  | cons ty rest ih =>
      intro pos slot p s h
      by_cases hL : ty = 'L'
      · have hunf : (marshalArgs (ty :: rest) pos slot).1
            = Inst.storeSirtSlot slot (SlotSrc.argVal pos)
              :: Inst.selectNullCheck pos slot
              :: (marshalArgs rest (pos + 1) (slot + 1)).1 := by
          simp [marshalArgs, hL]
        rw [hunf] at h
        rcases List.mem_cons.mp h with h | h
        · exact absurd h (by simp)
        · rcases List.mem_cons.mp h with h | h
          · injection h with h1 h2
            omega
          · have := ih (pos + 1) (slot + 1) p s h
            omega
      · simp only [marshalArgs, hL, if_false] at h
        exact ih (pos + 1) slot p s h

/-- A null-check select occurring anywhere in the trace comes from the
marshalling phase. -/
theorem select_mem_trace_to_marshal (m : MethodInfo) (p s : Nat)
    (h : Inst.selectNullCheck p s ∈ compileTrace m) :
    Inst.selectNullCheck p s ∈ marshalSection m := by
  unfold compileTrace at h
  simp only [List.mem_append] at h
  rcases h with (((((h | h) | h) | h) | h) | h) | h
  · simp [framePrologue] at h
  · exact h
  · simp [scopeSaveAndCall] at h
  · unfold decodeSection at h
    split at h <;> simp at h
  · simp [scopeRestoreAndPop] at h
  · unfold retSection at h
    split at h <;> simp at h
  · simp at h

/-- Does an instruction read the segment-state field? -/
def readsSegStateB : Inst → Bool
  | Inst.loadEnv EnvField.segmentState _ => true
  | _ => false

/-!
## The claims
-/

/-- C1: In the generated stub, the shadow frame is pushed onto the thread's
frame stack strictly before any reference value is stored into any of its
slots and strictly before the thread's state field is set to native, and
the frame is popped only after the thread's state has been set back to
runnable and after the return value (when reference-typed) has been
decoded. -/
theorem C1_frame_publication_bracketing (m : MethodInfo) :
    Inst.pushShadowFrame ∈ compileTrace m ∧
    Inst.setThreadState TState.kNative ∈ compileTrace m ∧
    Inst.setThreadState TState.kRunnable ∈ compileTrace m ∧
    Inst.popShadowFrame ∈ compileTrace m ∧
    Before (compileTrace m) isPushB isStoreSirtB ∧
    Before (compileTrace m) isPushB isSetNativeB ∧
    Before (compileTrace m) isSetRunnableB isPopB ∧
    Before (compileTrace m) isDecodeB isPopB ∧
    (compileTrace m).filter isDecodeB
      = (if m.shortyRet = 'L' then [Inst.decodeJObjectInThread] else []) :=
  ⟨push_mem_trace m, setNative_mem_trace m, setRunnable_mem_trace m,
   pop_mem_trace m, before_push_storeSirt m, before_push_setNative m,
   before_setRunnable_pop m, before_decode_pop m, filter_decode m⟩

/-- C2: For every compiled method, the allocated shadow frame has exactly
as many reference slots as the method has reference-typed declared
arguments, plus one extra slot if and only if the method is static; the
frame is zero-initialized and then the method pointer and this slot count
are stored into its header fields. -/
theorem C2_shadow_frame_shape (m : MethodInfo) :
    sirtSize m = ((bridgeParamTys m).filter (fun c => c = 'L')).length
        + (if m.isStatic then 1 else 0) ∧
    (compileTrace m).take 6
      = [Inst.getCurrentThread,
         Inst.allocaShadowFrame
           (((bridgeParamTys m).filter (fun c => c = 'L')).length
             + (if m.isStatic then 1 else 0)),
         Inst.zeroInitShadowFrame,
         Inst.storeMethodField,
         Inst.storeSizeField
           (((bridgeParamTys m).filter (fun c => c = 'L')).length
             + (if m.isStatic then 1 else 0)),
         Inst.pushShadowFrame] := by
  have h : sirtSize m = ((bridgeParamTys m).filter (fun c => c = 'L')).length
      + (if m.isStatic then 1 else 0) := by
    unfold sirtSize
    omega
  refine ⟨h, ?_⟩
  rw [← h]
  rfl

/-- C3: For every reference-typed declared argument, the stub writes the
argument value into the next unused shadow-frame slot, and the value placed
in the foreign argument list is a literal null when the original argument
is null, and the slot's address (cast to a reference handle) otherwise; it
is never a slot address for a null argument. -/
theorem C3_null_preserving_marshalling (m : MethodInfo) (p : Nat)
    (h : (bridgeParamTys m)[p]? = some 'L') :
    Inst.storeSirtSlot (slotFor m p) (SlotSrc.argVal p) ∈ compileTrace m ∧
    MArg.refArg p (slotFor m p) ∈ foreignArgList m ∧
    (∀ (argv : Nat → Option Nat) (classRef : Option Nat), argv p = none →
      evalMArg argv classRef (MArg.refArg p (slotFor m p)) = RVal.rnull) ∧
    (∀ (argv : Nat → Option Nat) (classRef : Option Nat) (a : Nat),
      argv p = some a →
      evalMArg argv classRef (MArg.refArg p (slotFor m p))
        = RVal.slotAddr (slotFor m p)) ∧
    (∀ (argv : Nat → Option Nat) (classRef : Option Nat) (s' : Nat),
      argv p = none →
      evalMArg argv classRef (MArg.refArg p (slotFor m p))
        ≠ RVal.slotAddr s') := by
  refine ⟨mem_trace_of_mem_marshal m _ (storeSirt_mem_marshalSection m p h),
    refArg_mem_foreignArgList m p h, ?_, ?_, ?_⟩
  · intro argv classRef hnull
    simp [evalMArg, hnull]
  · intro argv classRef a ha
    simp [evalMArg, ha]
  · intro argv classRef s' hnull
    simp [evalMArg, hnull]

/-- Witness for C3 on the instance method Object get(Object key): the key
(bridge position 1) is stored into slot 1; marshalled as a literal null
when null and as the slot-1 address when non-null. -/
theorem C3_witness :
    Inst.storeSirtSlot 1 (SlotSrc.argVal 1) ∈ compileTrace mGet ∧
    MArg.refArg 1 1 ∈ foreignArgList mGet ∧
    evalMArg (fun _ => none) none (MArg.refArg 1 1) = RVal.rnull ∧
    evalMArg (fun _ => some 5) none (MArg.refArg 1 1) = RVal.slotAddr 1 ∧
    evalMArg (fun _ => none) none (MArg.refArg 1 1) ≠ RVal.slotAddr 1 := by
  have h := C3_null_preserving_marshalling mGet 1 (by decide)
  exact ⟨h.1, h.2.1, h.2.2.1 _ none rfl, h.2.2.2.1 _ none 5 rfl,
    h.2.2.2.2 _ none 1 rfl⟩

/-- C4: After the foreign call and the stub's epilogue stores, the
environment's saved-cookie field again holds the value it held before the
call, and the environment's segment-state field again holds the value it
held before the call, for any sequence of local references the foreign call
created (save/restore round-trip). -/
theorem C4_cookie_segment_roundtrip (m : MethodInfo) (created : Nat)
    (s : ScopeState) :
    (runScope created s (compileTrace m)).localRefCookie = s.localRefCookie ∧
    (runScope created s (compileTrace m)).segmentState = s.segmentState := by
  rw [runScope_compileTrace]
  exact ⟨rfl, rfl⟩

/-- C5 counterexample: `llvm::verifyFunction` is invoked with
`PrintMessageAction` and its verdict is discarded (line 254), so even when
the verifier rejects the emitted body (verdict `true`), `Compile` still
returns a CompiledStub artifact — refuting the claim that packaging is
aborted and no artifact is returned. -/
theorem C5_counterexample_artifact_despite_reject :
    (Compile mAdd 7 3 true).2 ≠ none := by
  decide

/-- C5 (amended): the verifier is invoked on every emitted body, but in
print-message mode: a rejection is reported on the error stream yet
packaging proceeds, and the CompiledStub is returned for either verifier
verdict. -/
theorem C5_amended_verifier_not_fatal (m : MethodInfo)
    (instructionSet elfIndex : Nat) (verdict : Bool) :
    (Compile m instructionSet elfIndex verdict).2
        = some ⟨instructionSet, elfIndex⟩ ∧
    Inst.verifyFunction ∈ (Compile m instructionSet elfIndex verdict).1 :=
  ⟨rfl, verify_mem_trace m⟩

/-- C6 as stated by the spec: every argument-binding SIRT store precedes
the native-state store. -/
def claimC6 (m : MethodInfo) : Prop :=
  Before (compileTrace m) isStoreSirtB isSetNativeB

/-- C6 counterexample: on static int add(int, int) the declaring-class SIRT
store is emitted at index 11, after the native-state store at index 8 —
arguments are bound after, not before, the thread state is set to
native. -/
theorem C6_counterexample_binding_after_native : ¬ claimC6 mAdd := by
  intro h
  have h8 : (compileTrace mAdd)[8]?
      = some (Inst.setThreadState TState.kNative) := by decide
  have h11 : (compileTrace mAdd)[11]?
      = some (Inst.storeSirtSlot 0 SlotSrc.classObj) := by decide
  have := h 11 8 _ _ h11 h8 rfl rfl
  omega

/-- C6 (amended): the per-stub lowering is strictly linear, but the thread
state is set to native before the arguments are bound: allocate frame →
push frame → set state native → bind arguments → foreign call → set state
runnable → decode return → unlink frame → verify. -/
theorem C6_amended_stage_order (m : MethodInfo) :
    Before (compileTrace m) isAllocaB isPushB ∧
    Before (compileTrace m) isPushB isSetNativeB ∧
    Before (compileTrace m) isSetNativeB isStoreSirtB ∧
    Before (compileTrace m) isStoreSirtB isCallNativeB ∧
    Before (compileTrace m) isCallNativeB isSetRunnableB ∧
    Before (compileTrace m) isSetRunnableB isDecodeB ∧
    Before (compileTrace m) isDecodeB isPopB ∧
    Before (compileTrace m) isPopB isVerifyB ∧
    Inst.allocaShadowFrame (sirtSize m) ∈ compileTrace m ∧
    Inst.pushShadowFrame ∈ compileTrace m ∧
    Inst.setThreadState TState.kNative ∈ compileTrace m ∧
    Inst.callNative (foreignArgList m) ∈ compileTrace m ∧
    Inst.setThreadState TState.kRunnable ∈ compileTrace m ∧
    Inst.popShadowFrame ∈ compileTrace m ∧
    Inst.verifyFunction ∈ compileTrace m :=
  ⟨before_alloca_push m, before_push_setNative m, before_setNative_storeSirt m,
   before_storeSirt_call m, before_call_setRunnable m,
   before_setRunnable_decode m, before_decode_pop m, before_pop_verify m,
   alloca_mem_trace m, push_mem_trace m, setNative_mem_trace m,
   call_mem_trace m, setRunnable_mem_trace m, pop_mem_trace m,
   verify_mem_trace m⟩

/-- C7 as stated by the spec: after the foreign call, the epilogue reads
the (possibly advanced) segment state, writes it back into the
segment-state field, and then restores the original saved cookie into the
cookie field. -/
def claimC7 (m : MethodInfo) : Prop :=
  ∃ i j k : Nat, i < j ∧ j < k ∧
    (∃ r, (postCallTrace (compileTrace m))[i]?
        = some (Inst.loadEnv EnvField.segmentState r)) ∧
    (∃ r, (postCallTrace (compileTrace m))[j]?
        = some (Inst.storeEnv EnvField.segmentState r)) ∧
    (postCallTrace (compileTrace m))[k]?
        = some (Inst.storeEnv EnvField.localRefCookie Reg.savedLocalRefCookie)

/-- C7 counterexample: after the foreign call the stub never reads the
segment-state field at all — the only env load in the epilogue is of the
cookie field (line 227) — shown on static int add(int, int). -/
theorem C7_counterexample_no_segment_read : ¬ claimC7 mAdd := by
  rintro ⟨i, j, k, hij, hjk, ⟨r, hi⟩, hj, hk⟩
  have hmem := List.getElem?_mem hi
  have hall : ∀ a ∈ postCallTrace (compileTrace mAdd),
      readsSegStateB a = false := by decide
  have h1 := hall _ hmem
  have h2 : readsSegStateB (Inst.loadEnv EnvField.segmentState r) = true := rfl
  rw [h1] at h2
  exact Bool.false_ne_true h2

/-- C7 (amended): after the foreign call and thread-state restore, the only
env-field load the epilogue performs is of the cookie field — which at that
point holds the segment state captured before the call — and its env-field
stores are exactly: that cookie value into the segment-state field, then
the original saved cookie into the cookie field, in that order. -/
theorem C7_amended_epilogue_reads_cookie (m : MethodInfo) :
    envLoads (postCallTrace (compileTrace m))
      = [(EnvField.localRefCookie, Reg.localRefCookieReg)] ∧
    envStores (postCallTrace (compileTrace m))
      = [(EnvField.segmentState, Reg.localRefCookieReg),
         (EnvField.localRefCookie, Reg.savedLocalRefCookie)] ∧
    (∀ (created : Nat) (s : ScopeState),
      (runScope created s (compileTrace m)).localRefCookieReg
        = s.segmentState) := by
  refine ⟨envLoads_postCall m, envStores_postCall m, ?_⟩
  intro created s
  rw [runScope_compileTrace]

/-- C8: The assembled foreign argument list is exactly: the environment
handle first, then the receiver-or-class reference handle, then each
marshalled declared argument in declaration order; shadow-frame slots are
consumed densely in that same order, with the class/receiver slot (when
present) at index 0. -/
theorem C8_argument_list_order (m : MethodInfo) :
    (foreignArgList m)[0]? = some MArg.envHandle ∧
    (foreignArgList m)[1]?
      = some (if m.isStatic then MArg.classSlotRef 0 else MArg.refArg 0 0) ∧
    (∀ p : Nat, (foreignArgList m)[p + 2]?
      = (m.shortyArgs[p]?).map (fun ty =>
          if ty = 'L' then
            MArg.refArg (if m.isStatic then p else p + 1)
              (1 + refCountBefore m.shortyArgs p)
          else MArg.primArg (if m.isStatic then p else p + 1))) ∧
    Inst.callNative (foreignArgList m) ∈ compileTrace m ∧
    sirtStoreSlots (compileTrace m) = List.range (sirtSize m) := by
  refine ⟨?_, ?_, ?_, call_mem_trace m, sirtStoreSlots_compileTrace m⟩
  · simp [foreignArgList]
  · cases hs : m.isStatic with
    | true => simp [foreignArgList, hs]
    | false =>
        have hb : bridgeParamTys m = 'L' :: m.shortyArgs := by
          simp [bridgeParamTys, hs]
        simp only [foreignArgList, hs, Bool.false_eq_true, if_false,
          List.getElem?_cons_succ]
        rw [marshalArgs_margs_getElem?, hb]
        simp [refCountBefore_zero]
  · intro p
    cases hs : m.isStatic with
    | true =>
        have hb : bridgeParamTys m = m.shortyArgs := by
          simp [bridgeParamTys, hs]
        simp only [foreignArgList, hs, if_true, List.getElem?_cons_succ]
        rw [marshalArgs_margs_getElem?, hb]
        cases hr : m.shortyArgs[p]? with
        | none => simp
        | some ty =>
            by_cases h' : ty = 'L' <;> simp [h', hs, Nat.add_comm]
    | false =>
        have hb : bridgeParamTys m = 'L' :: m.shortyArgs := by
          simp [bridgeParamTys, hs]
        simp only [foreignArgList, hs, Bool.false_eq_true, if_false,
          List.getElem?_cons_succ]
        rw [marshalArgs_margs_getElem?, hb]
        simp only [List.getElem?_cons_succ, refCountBefore_cons, if_true]
        cases hr : m.shortyArgs[p]? with
        | none => simp
        | some ty =>
            by_cases h' : ty = 'L' <;> simp [h', hs, Nat.add_comm]

/-- C9: The return-value decode call is emitted if and only if the method's
resolved return type tag is reference-typed; for every primitive return
type the raw foreign return value is returned unmodified, and for a void
return type no value is produced. -/
theorem C9_decode_iff_reference_return (m : MethodInfo) :
    (compileTrace m).filter isDecodeB
      = (if m.shortyRet = 'L' then [Inst.decodeJObjectInThread] else []) ∧
    (compileTrace m).filter isRetB
      = (if m.shortyRet = 'V' then [Inst.retVoid]
         else [Inst.retVal
            (if m.shortyRet = 'L' then RetSrc.decodedRaw else RetSrc.raw)]) :=
  ⟨filter_decode m, filter_ret m⟩

/-- C10: For every static method, the implicit declaring-class reference is
stored into shadow-frame slot 0 and is always passed to the foreign callee
as that slot's address cast to a reference handle, with no null check:
unlike declared reference arguments, a null declaring class would be passed
as a slot address rather than as a literal null. -/
theorem C10_class_slot_never_null_checked (m : MethodInfo)
    (h : m.isStatic = true) :
    Inst.loadDeclaringClass ∈ compileTrace m ∧
    Inst.storeSirtSlot 0 SlotSrc.classObj ∈ compileTrace m ∧
    (foreignArgList m)[1]? = some (MArg.classSlotRef 0) ∧
    (∀ (argv : Nat → Option Nat) (classRef : Option Nat),
      evalMArg argv classRef (MArg.classSlotRef 0) = RVal.slotAddr 0) ∧
    (∀ argv : Nat → Option Nat,
      evalMArg argv none (MArg.classSlotRef 0) ≠ RVal.rnull) ∧
    (∀ p : Nat, Inst.selectNullCheck p 0 ∉ compileTrace m) := by
  refine ⟨?_, ?_, ?_, fun _ _ => rfl, fun _ => by simp [evalMArg], ?_⟩
  · apply mem_trace_of_mem_marshal
    simp [marshalSection, h]
  · apply mem_trace_of_mem_marshal
    simp [marshalSection, h]
  · simp [foreignArgList, h]
  · intro p hmem
    have hm := select_mem_trace_to_marshal m p 0 hmem
    simp only [marshalSection, h, if_true, List.mem_cons] at hm
    rcases hm with hm | hm | hm
    · exact absurd hm (by simp)
    · exact absurd hm (by simp)
    · have := marshalArgs_select_slot_ge (bridgeParamTys m) 0 1 p 0 hm
      omega

/-- Witness for C10 on static int add(int, int): the declaring class is
stored into slot 0 and marshalled as the slot-0 address even when the
class reference is null. -/
theorem C10_witness :
    Inst.storeSirtSlot 0 SlotSrc.classObj ∈ compileTrace mAdd ∧
    (foreignArgList mAdd)[1]? = some (MArg.classSlotRef 0) ∧
    evalMArg (fun _ => none) none (MArg.classSlotRef 0) = RVal.slotAddr 0 := by
  have h := C10_class_slot_never_null_checked mAdd rfl
  exact ⟨h.2.1, h.2.2.1, h.2.2.2.1 (fun _ => none) none⟩

end ArtJni
